import Mathlib

/-! Shallow embedding of the shoe-store backend (src/main.py, src/schemas.py).

Document collections are lists of records in insertion order; MongoDB
`find_one` / `update_one` / `delete_one` are first-match list operations;
Python floats are rationals; Python `round(x, 2)` is round-half-to-even at
two decimals; the ids that `create_document` lets the datastore generate are
passed in explicitly as `freshId` parameters. -/

attribute [local semireducible] Rat.mul Rat.inv Rat.sub Rat.add

namespace ShoeStore

/-- Python `round` to the nearest integer, ties to even. -/
def roundHalfEven (q : ℚ) : ℤ :=
  let f : ℤ := q.num.fdiv (q.den : ℤ)
  let frac : ℚ := q - (f : ℚ)
  if frac < 1 / 2 then f
  else if 1 / 2 < frac then f + 1
  else if f % 2 = 0 then f else f + 1

/-- Python `round(x, 2)`. -/
def round2 (q : ℚ) : ℚ := (roundHalfEven (q * 100) : ℚ) / 100

/-- Hexadecimal digit, either case (what `bson.ObjectId` accepts per char). -/
def isHexChar (c : Char) : Bool :=
  c.isDigit || ('a' ≤ c && c ≤ 'f') || ('A' ≤ c && c ≤ 'F')

/-- `ObjectId(str(v))` succeeds exactly on 24-character hex strings. -/
def isValidObjectId (sid : String) : Bool :=
  sid.length == 24 && sid.toList.all isHexChar

/-- Rating summary stored on a product (schemas.py `rating` dict). -/
structure Rating where
  average : ℚ
  count : ℕ
deriving DecidableEq

/-- schemas.py `Shoeproduct`, with the datastore-assigned `_id`. -/
structure Shoeproduct where
  _id : String
  name : String
  brand : String
  description : Option String := none
  price : ℚ
  sizes : List ℤ := []
  style : Option String := none
  images : List String := []
  in_stock : Bool := true
  stock_by_size : List (String × ℕ) := []
  rating : Rating := ⟨0, 0⟩
  tags : List String := []
deriving DecidableEq

/-- schemas.py `Review`, with the datastore-assigned `_id`. -/
structure Review where
  _id : String
  product_id : String
  user_id : Option String := none
  rating : ℤ
  comment : Option String := none
  author_name : Option String := none
deriving DecidableEq

/-- main.py `CartItem`. -/
structure CartItem where
  product_id : String
  name : String
  price : ℚ
  size : ℤ
  qty : ℤ := 1
  image : Option String := none
deriving DecidableEq

/-- schemas.py `Cart`, with the datastore-assigned `_id`. -/
structure Cart where
  _id : String
  owner_type : String
  owner_id : String
  items : List CartItem := []
deriving DecidableEq

/-- The `payment` sub-record of an order. -/
structure Payment where
  method : Option String := none
  status : String := "pending"
  transaction_id : Option String := none
deriving DecidableEq

/-- The `tracking` sub-record of an order. -/
structure Tracking where
  carrier : Option String := none
  tracking_number : Option String := none
  status : String := "processing"
deriving DecidableEq

/-- schemas.py `Order`, with the datastore-assigned `_id`. -/
structure Order where
  _id : String
  user_id : Option String := none
  items : List CartItem := []
  total_amount : ℚ := 0
  status : String := "pending"
  shipping_address : Option (List (String × String)) := none
  payment : Payment := {}
  tracking : Tracking := {}
deriving DecidableEq

/-- schemas.py `Promocode`. -/
structure Promocode where
  code : String
  discount_type : String := "percentage"
  value : ℚ
  active : Bool := true
  description : Option String := none
deriving DecidableEq

/-- The datastore: one list per collection, in insertion order. -/
structure State where
  shoeproducts : List Shoeproduct := []
  reviews : List Review := []
  carts : List Cart := []
  orders : List Order := []
  promocodes : List Promocode := []
deriving DecidableEq

/-- main.py `CartOwner`. -/
structure CartOwner where
  owner_type : String
  owner_id : String
deriving DecidableEq

/-- What GET /api/cart returns: the items plus the computed total. -/
structure CartView where
  items : List CartItem
  total : ℚ
deriving DecidableEq

/-- main.py `ReviewCreate`. -/
structure ReviewCreate where
  product_id : String
  rating : ℤ
  comment : Option String := none
  author_name : Option String := none
deriving DecidableEq

/-- main.py `CheckoutPayload`. -/
structure CheckoutPayload where
  owner_type : String
  owner_id : String
  user_id : Option String := none
  shipping_address : Option (List (String × String)) := none
  payment_method : Option String := none
  promo_code : Option String := none
deriving DecidableEq

/-- The HTTPException errors raised by the endpoints under study. -/
inductive Err where
  | invalidProductId
  | productNotFound
  | cartNotFound
  | emptyCart
deriving DecidableEq

/-- Mongo `update_one`: apply `f` to the first element satisfying `p`. -/
def updateFirst {α : Type} (p : α → Bool) (f : α → α) : List α → List α
  | [] => []
  | x :: xs => if p x then f x :: xs else x :: updateFirst p f xs

/-- Mongo `delete_one`: remove the first element satisfying `p`. -/
def deleteFirst {α : Type} (p : α → Bool) : List α → List α
  | [] => []
  | x :: xs => if p x then xs else x :: deleteFirst p xs

/-- The filter `{"owner_type": ot, "owner_id": oi}` on the cart collection. -/
def ownerPred (ot oi : String) (c : Cart) : Bool :=
  c.owner_type == ot && c.owner_id == oi

/-- `db["cart"].find_one({"owner_type": ot, "owner_id": oi})`. -/
def findCart (ot oi : String) (s : State) : Option Cart :=
  s.carts.find? (ownerPred ot oi)

/-- `db["shoeproduct"].find_one({"_id": ObjectId(pid)})`. -/
def findProduct (pid : String) (s : State) : Option Shoeproduct :=
  s.shoeproducts.find? (fun p => p._id == pid)

/-- `db["order"].find_one({"_id": ObjectId(oid)})`. -/
def findOrder (oid : String) (s : State) : Option Order :=
  s.orders.find? (fun o => o._id == oid)

def cartIds (s : State) : List String := s.carts.map (fun c => c._id)

def cartOwners (s : State) : List (String × String) :=
  s.carts.map (fun c => (c.owner_type, c.owner_id))

def orderIds (s : State) : List String := s.orders.map (fun o => o._id)

/-- Datastore invariants: `_id` is a unique index and there is at most one
live cart document per owner (spec section 3). -/
abbrev WF (s : State) : Prop := (cartIds s).Nodup ∧ (cartOwners s).Nodup

/-- `sum(item.get("price", 0) * item.get("qty", 1) for item in items)`. -/
def cartTotal (items : List CartItem) : ℚ :=
  (items.map (fun it => it.price * (it.qty : ℚ))).sum

/-- GET /api/cart (main.py `get_cart`). -/
def getCart (ot oi : String) (s : State) : CartView :=
  match findCart ot oi s with
  | none => ⟨[], 0⟩
  | some c => ⟨c.items, round2 (cartTotal c.items)⟩

/-- The merge loop of `add_to_cart`: bump the qty of the first line matching
the incoming item's (product_id, size), else append the item at the end. -/
def mergeItem : List CartItem → CartItem → List CartItem
  | [], item => [item]
  | it :: rest, item =>
    if it.product_id == item.product_id && it.size == item.size then
      { it with qty := it.qty + item.qty } :: rest
    else
      it :: mergeItem rest item

/-- POST /api/cart/add (main.py `add_to_cart`); `freshId` is the id the
datastore would assign if a cart document is created. -/
def addToCart (owner : CartOwner) (item : CartItem) (freshId : String) (s : State) :
    Except Err String × State :=
  if isValidObjectId item.product_id then
    match findCart owner.owner_type owner.owner_id s with
    | none =>
      (.ok freshId,
       { s with carts := s.carts ++
           [{ _id := freshId, owner_type := owner.owner_type,
              owner_id := owner.owner_id, items := [item] }] })
    | some c =>
      let carts' := updateFirst (fun x => x._id == c._id)
        (fun x => { x with items := mergeItem c.items item }) s.carts
      (.ok c._id, { s with carts := carts' })
  else
    (.error .invalidProductId, s)

/-- POST /api/cart/remove (main.py `remove_from_cart`). -/
def removeFromCart (owner : CartOwner) (product_id : String) (size : ℤ) (s : State) :
    Except Err Bool × State :=
  match findCart owner.owner_type owner.owner_id s with
  | none => (.error .cartNotFound, s)
  | some c =>
    let items' := c.items.filter (fun it => !(it.product_id == product_id && it.size == size))
    let carts' := updateFirst (fun x => x._id == c._id)
      (fun x => { x with items := items' }) s.carts
    (.ok true, { s with carts := carts' })

/-- POST /api/cart/clear (main.py `clear_cart`): always returns ok. -/
def clearCart (owner : CartOwner) (s : State) : Bool × State :=
  (true, { s with carts := deleteFirst (ownerPred owner.owner_type owner.owner_id) s.carts })

/-- The discount computation inlined in `checkout`; Python's
`if payload.promo_code:` is false both for None and for the empty string. -/
def evalDiscount (promo_code : Option String) (subtotal : ℚ) (promos : List Promocode) : ℚ :=
  match promo_code with
  | none => 0
  | some code =>
    if code == "" then 0
    else
      match promos.find? (fun p => p.code == code && p.active) with
      | none => 0
      | some p =>
        if p.discount_type == "amount" then p.value
        else subtotal * p.value / 100

/-- Python `order_id[-6:]`. -/
def last6 (str : String) : String :=
  String.mk (str.toList.drop (str.toList.length - 6))

/-- POST /api/checkout (main.py `checkout`); `freshOrderId` is the id the
datastore assigns to the inserted order document. -/
def checkout (payload : CheckoutPayload) (freshOrderId : String) (s : State) :
    Except Err (String × String) × State :=
  match findCart payload.owner_type payload.owner_id s with
  | none => (.error .emptyCart, s)
  | some cart =>
    if cart.items.isEmpty then (.error .emptyCart, s)
    else
      let items := cart.items
      let subtotal := cartTotal items
      let discount := evalDiscount payload.promo_code subtotal s.promocodes
      let total : ℚ := max 0 (subtotal - discount)
      let order : Order :=
        { _id := freshOrderId, user_id := payload.user_id, items := items,
          total_amount := round2 total, status := "processing",
          shipping_address := payload.shipping_address,
          payment := { method := none, status := "pending", transaction_id := none },
          tracking := { carrier := none, tracking_number := none, status := "processing" } }
      let s1 : State := { s with orders := s.orders ++ [order] }
      let orders2 := updateFirst (fun o => o._id == freshOrderId)
        (fun o => { o with
            payment := { method := payload.payment_method, status := "paid",
                         transaction_id := some ("TXN-" ++ last6 freshOrderId) },
            status := "confirmed" }) s1.orders
      let s2 : State := { s1 with orders := orders2 }
      let s3 : State := { s2 with carts := deleteFirst (fun x => x._id == cart._id) s2.carts }
      (.ok (freshOrderId, "confirmed"), s3)

/-- The review document `create_review` inserts. -/
def mkReview (payload : ReviewCreate) (freshId : String) : Review :=
  { _id := freshId, product_id := payload.product_id, user_id := none,
    rating := payload.rating, comment := payload.comment,
    author_name := payload.author_name }

/-- `db["review"].find({"product_id": pid})`. -/
def productReviews (pid : String) (rs : List Review) : List Review :=
  rs.filter (fun r => r.product_id == pid)

/-- POST /api/reviews (main.py `create_review`). -/
def createReview (payload : ReviewCreate) (freshId : String) (s : State) :
    Except Err String × State :=
  if isValidObjectId payload.product_id then
    match findProduct payload.product_id s with
    | none => (.error .productNotFound, s)
    | some _ =>
      let s1 : State := { s with reviews := s.reviews ++ [mkReview payload freshId] }
      let rlist := productReviews payload.product_id s1.reviews
      let s2 : State :=
        if rlist.isEmpty then s1
        else
          let avg : ℚ := ((rlist.map (fun r => (r.rating : ℚ))).sum) / (rlist.length : ℚ)
          let prods' := updateFirst (fun p => p._id == payload.product_id)
            (fun p => { p with rating := ⟨round2 avg, rlist.length⟩ }) s1.shoeproducts
          { s1 with shoeproducts := prods' }
      (.ok freshId, s2)
  else
    (.error .invalidProductId, s)

/-- Line items of a cart matching a (product_id, size) key. -/
def matchKey (pid : String) (sz : ℤ) (it : CartItem) : Bool :=
  it.product_id == pid && it.size == sz

def keyLines (pid : String) (sz : ℤ) (items : List CartItem) : List CartItem :=
  items.filter (matchKey pid sz)

def keyQty (pid : String) (sz : ℤ) (items : List CartItem) : ℤ :=
  ((keyLines pid sz items).map (fun it => it.qty)).sum

/-- The owner's current cart contents ([] when no cart document exists). -/
def ownerItems (ot oi : String) (s : State) : List CartItem :=
  match findCart ot oi s with
  | none => []
  | some c => c.items

/-- A sequence of add-to-cart calls, each with its would-be fresh cart id. -/
def addSeq (o : CartOwner) (steps : List (CartItem × String)) (s : State) : State :=
  steps.foldl (fun st step => (addToCart o step.1 step.2 st).2) s

/-! ### Generic list lemmas about the datastore primitives -/

theorem updateFirst_append {α : Type} (p : α → Bool) (f : α → α) (l₁ l₂ : List α) (c : α)
    (h₁ : ∀ a ∈ l₁, p a = false) (hc : p c = true) :
    updateFirst p f (l₁ ++ c :: l₂) = l₁ ++ f c :: l₂ := by
  induction l₁ with
  | nil => simp [updateFirst, hc]
  | cons x xs ih =>
    have hx := h₁ x (by simp)
    simp [updateFirst, hx, ih fun a ha => h₁ a (by simp [ha])]

theorem deleteFirst_append {α : Type} (p : α → Bool) (l₁ l₂ : List α) (c : α)
    (h₁ : ∀ a ∈ l₁, p a = false) (hc : p c = true) :
    deleteFirst p (l₁ ++ c :: l₂) = l₁ ++ l₂ := by
  induction l₁ with
  | nil => simp [deleteFirst, hc]
  | cons x xs ih =>
    have hx := h₁ x (by simp)
    simp [deleteFirst, hx, ih fun a ha => h₁ a (by simp [ha])]

theorem deleteFirst_eq_self {α : Type} {p : α → Bool} {l : List α}
    (h : ∀ a ∈ l, p a = false) : deleteFirst p l = l := by
  induction l with
  | nil => rfl
  | cons x xs ih =>
    simp [deleteFirst, h x (by simp), ih fun a ha => h a (by simp [ha])]

theorem find?_append_first {α : Type} {p : α → Bool} {l₁ l₂ : List α} {c : α}
    (h₁ : ∀ a ∈ l₁, p a = false) (hc : p c = true) :
    (l₁ ++ c :: l₂).find? p = some c := by
  induction l₁ with
  | nil => simp [hc]
  | cons x xs ih =>
    have hx := h₁ x (by simp)
    simpa [hx] using ih fun a ha => h₁ a (by simp [ha])

theorem find?_eq_none_of_all {α : Type} {p : α → Bool} {l : List α}
    (h : ∀ a ∈ l, p a = false) : l.find? p = none :=
  List.find?_eq_none.mpr fun a ha => by simp [h a ha]

/-- Splitting facts out of a `Nodup` list of mapped keys. -/
theorem nodup_map_split {α β : Type} {g : α → β} {l₁ l₂ : List α} {c : α}
    (h : ((l₁ ++ c :: l₂).map g).Nodup) :
    (∀ a ∈ l₁, g a ≠ g c) ∧ ∀ a ∈ l₂, g a ≠ g c := by
  rw [List.map_append, List.map_cons, List.nodup_append] at h
  obtain ⟨-, h₂, hdisj⟩ := h
  constructor
  · intro a ha heq
    exact hdisj (List.mem_map_of_mem g ha) (by simp [heq])
  · intro a ha heq
    rw [List.nodup_cons] at h₂
    exact h₂.1 (heq ▸ List.mem_map_of_mem g ha)

/-- If the same first-match predicate is used to look up and to update, the
lookup after the update returns the updated document. -/
theorem find?_updateFirst {α : Type} {p : α → Bool} (f : α → α) {l : List α} {c : α}
    (h : l.find? p = some c) (hf : p (f c) = true) :
    (updateFirst p f l).find? p = some (f c) := by
  obtain ⟨hc, l₁, l₂, rfl, h₁⟩ := List.find?_eq_some.mp h
  have h₁' : ∀ a ∈ l₁, p a = false := fun a ha => by simpa using h₁ a ha
  rw [updateFirst_append p f l₁ l₂ c h₁' hc]
  exact find?_append_first h₁' hf

theorem length_filter_not_add {α : Type} (p : α → Bool) (l : List α) :
    (l.filter fun a => !(p a)).length + (l.filter p).length = l.length := by
  induction l with
  | nil => rfl
  | cons x xs ih =>
    cases hx : p x <;> simp [List.filter_cons, hx, ← ih] <;> omega

/-! ### Cart collection lemmas -/

theorem ownerPred_eq_true {ot oi : String} {c : Cart} :
    ownerPred ot oi c = true ↔ c.owner_type = ot ∧ c.owner_id = oi := by
  simp [ownerPred]

theorem findCart_decomp {ot oi : String} {s : State} {c : Cart}
    (h : findCart ot oi s = some c) :
    c.owner_type = ot ∧ c.owner_id = oi ∧
    ∃ l₁ l₂, s.carts = l₁ ++ c :: l₂ ∧ ∀ a ∈ l₁, ownerPred ot oi a = false := by
  obtain ⟨hc, l₁, l₂, hsplit, h₁⟩ := List.find?_eq_some.mp h
  exact ⟨(ownerPred_eq_true.mp hc).1, (ownerPred_eq_true.mp hc).2, l₁, l₂, hsplit,
    fun a ha => by simpa using h₁ a ha⟩

/-- Replacing the items of the cart document found for an owner: the shape
shared by the merge branch of `add_to_cart` and by `remove_from_cart`. -/
theorem updateItems_spec {ot oi : String} {s : State} {c : Cart} (its : List CartItem)
    (hwf : WF s) (hc : findCart ot oi s = some c) :
    (updateFirst (fun x => x._id == c._id) (fun x => { x with items := its })
        s.carts).find? (ownerPred ot oi) = some { c with items := its } ∧
    (updateFirst (fun x => x._id == c._id) (fun x => { x with items := its })
        s.carts).map (fun x => x._id) = cartIds s ∧
    (updateFirst (fun x => x._id == c._id) (fun x => { x with items := its })
        s.carts).map (fun x => (x.owner_type, x.owner_id)) = cartOwners s := by
  obtain ⟨hct, hci, l₁, l₂, hsplit, h₁⟩ := findCart_decomp hc
  have hids : ((l₁ ++ c :: l₂).map (fun x => x._id)).Nodup := by
    have := hwf.1; rwa [cartIds, hsplit] at this
  have hid₁ := (nodup_map_split hids).1
  have hup : updateFirst (fun x => x._id == c._id) (fun x => { x with items := its })
      s.carts = l₁ ++ { c with items := its } :: l₂ := by
    rw [hsplit]
    exact updateFirst_append _ _ l₁ l₂ c
      (fun a ha => by simp [hid₁ a ha]) (by simp)
  refine ⟨?_, ?_, ?_⟩
  · rw [hup]
    exact find?_append_first h₁ (ownerPred_eq_true.mpr ⟨hct, hci⟩)
  · rw [hup, cartIds, hsplit]; simp
  · rw [hup, cartOwners, hsplit]; simp

/-- What one `add_to_cart` call does to the owner's cart and to the cart
collection's keys, in both the create and the merge branch. -/
theorem addToCart_ok {o : CartOwner} {item : CartItem} {fid : String} {s : State}
    (hwf : WF s) (hv : isValidObjectId item.product_id = true) :
    (∃ cid, (addToCart o item fid s).1 = .ok cid) ∧
    (∃ i, findCart o.owner_type o.owner_id (addToCart o item fid s).2 =
       some { _id := i, owner_type := o.owner_type, owner_id := o.owner_id,
              items := mergeItem (ownerItems o.owner_type o.owner_id s) item }) ∧
    (∀ x ∈ cartIds (addToCart o item fid s).2, x ∈ cartIds s ∨ x = fid) ∧
    (fid ∉ cartIds s → WF (addToCart o item fid s).2) := by
  cases hc : findCart o.owner_type o.owner_id s with
  | none =>
    have hall : ∀ a ∈ s.carts, ownerPred o.owner_type o.owner_id a = false := by
      intro a ha
      have := List.find?_eq_none.mp hc a ha
      simpa using this
    have hs' : addToCart o item fid s =
        (.ok fid, { s with carts := s.carts ++
          [{ _id := fid, owner_type := o.owner_type, owner_id := o.owner_id,
             items := [item] }] }) := by
      simp [addToCart, hv, hc]
    refine ⟨⟨fid, by rw [hs']⟩, ⟨fid, ?_⟩, ?_, ?_⟩
    · rw [hs']
      have : ownerItems o.owner_type o.owner_id s = [] := by
        simp [ownerItems, hc]
      rw [this]
      show (s.carts ++ [_]).find? _ = _
      rw [List.find?_append, find?_eq_none_of_all hall]
      simp [ownerPred, mergeItem]
    · intro x hx
      rw [hs'] at hx
      simp only [cartIds, List.map_append, List.mem_append] at hx
      rcases hx with hx | hx
      · exact .inl hx
      · simp at hx; exact .inr hx
    · intro hfresh
      rw [hs']
      constructor
      · simp only [cartIds, List.map_append, List.map_cons, List.map_nil]
        rw [List.nodup_append]
        exact ⟨hwf.1, List.nodup_singleton _, by
          intro x hx hmem
          simp at hmem
          exact hfresh (hmem ▸ hx)⟩
      · simp only [cartOwners, List.map_append, List.map_cons, List.map_nil]
        rw [List.nodup_append]
        refine ⟨hwf.2, List.nodup_singleton _, ?_⟩
        intro x hx hmem
        simp only [List.mem_singleton] at hmem
        subst hmem
        obtain ⟨a, ha, hax⟩ := List.mem_map.mp hx
        have hfa := hall a ha
        have h1 : a.owner_type = o.owner_type := congrArg Prod.fst hax
        have h2 : a.owner_id = o.owner_id := congrArg Prod.snd hax
        simp [ownerPred, h1, h2] at hfa
  | some c =>
    obtain ⟨hfind, hids, hows⟩ := updateItems_spec (mergeItem c.items item) hwf hc
    obtain ⟨hct, hci, -⟩ := findCart_decomp hc
    have hown : ownerItems o.owner_type o.owner_id s = c.items := by
      simp [ownerItems, hc]
    have hs1 : (addToCart o item fid s).1 = .ok c._id := by
      simp [addToCart, hv, hc]
    have hs2 : (addToCart o item fid s).2.carts =
        updateFirst (fun x => x._id == c._id)
          (fun x => { x with items := mergeItem c.items item }) s.carts := by
      simp [addToCart, hv, hc]
    refine ⟨⟨c._id, hs1⟩, ⟨c._id, ?_⟩, ?_, ?_⟩
    · rw [hown]
      show ((addToCart o item fid s).2.carts).find? _ = _
      rw [hs2, hfind]
      cases c
      simp_all
    · intro x hx
      have hx' : x ∈ ((addToCart o item fid s).2.carts).map (fun y => y._id) := hx
      rw [hs2] at hx'
      rw [hids] at hx'
      exact .inl hx'
    · intro _
      constructor
      · show (((addToCart o item fid s).2.carts).map _).Nodup
        rw [hs2, hids]; exact hwf.1
      · show (((addToCart o item fid s).2.carts).map _).Nodup
        rw [hs2, hows]; exact hwf.2

/-! ### Pure lemmas about the merge loop -/

theorem keyQty_mergeItem {pid : String} {sz : ℤ} {item : CartItem} (items : List CartItem)
    (hp : item.product_id = pid) (hs : item.size = sz) :
    keyQty pid sz (mergeItem items item) = keyQty pid sz items + item.qty := by
  induction items with
  | nil => simp [mergeItem, keyQty, keyLines, matchKey, hp, hs]
  | cons it rest ih =>
    by_cases hm : (it.product_id == item.product_id && it.size == item.size) = true
    · have hm' : it.product_id = item.product_id ∧ it.size = item.size := by
        simpa using hm
      have hkey : matchKey pid sz it = true := by
        simp [matchKey, hm'.1, hm'.2, hp, hs]
      have hkey2 : matchKey pid sz { it with qty := it.qty + item.qty } = true := by
        simpa [matchKey] using by simpa [matchKey] using hkey
      simp only [mergeItem, hm, if_true, keyQty, keyLines, List.filter_cons, hkey2, hkey,
        List.map_cons, List.sum_cons]
      ring
    · have hkey : matchKey pid sz it = false := by
        rw [matchKey, ← hp, ← hs]
        simpa using hm
      have hm'' : (it.product_id == item.product_id && it.size == item.size) = false := by
        simpa using hm
      simp only [mergeItem, hm'', Bool.false_eq_true, if_false, keyQty, keyLines,
        List.filter_cons, hkey]
      exact ih

theorem keyLen_mergeItem {pid : String} {sz : ℤ} {item : CartItem} (items : List CartItem)
    (hp : item.product_id = pid) (hs : item.size = sz) :
    (keyLines pid sz (mergeItem items item)).length =
      max 1 (keyLines pid sz items).length := by
  induction items with
  | nil => simp [mergeItem, keyLines, matchKey, hp, hs]
  | cons it rest ih =>
    by_cases hm : (it.product_id == item.product_id && it.size == item.size) = true
    · have hm' : it.product_id = item.product_id ∧ it.size = item.size := by
        simpa using hm
      have hkey : matchKey pid sz it = true := by
        simp [matchKey, hm'.1, hm'.2, hp, hs]
      have hkey2 : matchKey pid sz { it with qty := it.qty + item.qty } = true := by
        simpa [matchKey] using by simpa [matchKey] using hkey
      simp only [mergeItem, hm, if_true, keyLines, List.filter_cons, hkey2, hkey]
      simp
    · have hkey : matchKey pid sz it = false := by
        rw [matchKey, ← hp, ← hs]
        simpa using hm
      have hm'' : (it.product_id == item.product_id && it.size == item.size) = false := by
        simpa using hm
      simp only [mergeItem, hm'', Bool.false_eq_true, if_false, keyLines,
        List.filter_cons, hkey]
      exact ih

/-- When no line matches the incoming item's key, the merge loop appends. -/
theorem mergeItem_of_no_match {pid : String} {sz : ℤ} {item : CartItem} (items : List CartItem)
    (hp : item.product_id = pid) (hs : item.size = sz)
    (h : ∀ it ∈ items, matchKey pid sz it = false) :
    mergeItem items item = items ++ [item] := by
  induction items with
  | nil => simp [mergeItem]
  | cons it rest ih =>
    have hkey := h it (by simp)
    have hm : (it.product_id == item.product_id && it.size == item.size) = false := by
      rw [matchKey, ← hp, ← hs] at hkey
      simpa using hkey
    simp only [mergeItem, hm, Bool.false_eq_true, if_false, List.cons_append,
      List.cons.injEq, true_and]
    exact ih fun a ha => h a (by simp [ha])

theorem keyQty_foldl {pid : String} {sz : ℤ} (its items : List CartItem)
    (h : ∀ it ∈ its, it.product_id = pid ∧ it.size = sz) :
    keyQty pid sz (its.foldl mergeItem items) =
      keyQty pid sz items + (its.map (fun it => it.qty)).sum := by
  induction its generalizing items with
  | nil => simp
  | cons it rest ih =>
    simp only [List.foldl_cons, List.map_cons, List.sum_cons]
    rw [ih _ fun a ha => h a (by simp [ha])]
    rw [keyQty_mergeItem items (h it (by simp)).1 (h it (by simp)).2]
    ring

theorem keyLen_foldl {pid : String} {sz : ℤ} (its items : List CartItem)
    (h : ∀ it ∈ its, it.product_id = pid ∧ it.size = sz) (hne : its ≠ []) :
    (keyLines pid sz (its.foldl mergeItem items)).length =
      max 1 (keyLines pid sz items).length := by
  induction its generalizing items with
  | nil => exact absurd rfl hne
  | cons it rest ih =>
    simp only [List.foldl_cons]
    rcases Decidable.em (rest = []) with hr | hr
    · subst hr
      simp only [List.foldl_nil]
      exact keyLen_mergeItem items (h it (by simp)).1 (h it (by simp)).2
    · rw [ih _ (fun a ha => h a (by simp [ha])) hr]
      rw [keyLen_mergeItem items (h it (by simp)).1 (h it (by simp)).2]
      omega

/-! ### The add-sequence induction -/

theorem addSeq_spec (o : CartOwner) (steps : List (CartItem × String)) (s : State)
    (hwf : WF s)
    (hv : ∀ st ∈ steps, isValidObjectId st.1.product_id = true)
    (hnd : (steps.map Prod.snd).Nodup)
    (hfr : ∀ f ∈ steps.map Prod.snd, f ∉ cartIds s) :
    WF (addSeq o steps s) ∧
    ownerItems o.owner_type o.owner_id (addSeq o steps s) =
      (steps.map Prod.fst).foldl mergeItem (ownerItems o.owner_type o.owner_id s) ∧
    ∀ x ∈ cartIds (addSeq o steps s), x ∈ cartIds s ∨ x ∈ steps.map Prod.snd := by
  induction steps generalizing s with
  | nil => exact ⟨hwf, by simp [addSeq], fun x hx => .inl hx⟩
  | cons st rest ih =>
    obtain ⟨-, ⟨i, hfind⟩, hsub, hwf'⟩ := @addToCart_ok o st.1 st.2 s hwf (hv st (by simp))
    have hfr_head : st.2 ∉ cartIds s := hfr st.2 (by simp)
    have hwf2 := hwf' hfr_head
    rw [List.map_cons, List.nodup_cons] at hnd
    have hofold : ownerItems o.owner_type o.owner_id (addToCart o st.1 st.2 s).2 =
        mergeItem (ownerItems o.owner_type o.owner_id s) st.1 := by
      simp [ownerItems, hfind]
    have hfr' : ∀ f ∈ rest.map Prod.snd, f ∉ cartIds (addToCart o st.1 st.2 s).2 := by
      intro f hf hmem
      rcases hsub f hmem with h | h
      · exact hfr f (by simp [hf]) h
      · subst h
        exact hnd.1 hf
    obtain ⟨hwfF, hitems, hsubF⟩ :=
      ih (addToCart o st.1 st.2 s).2 hwf2 (fun a ha => hv a (by simp [ha])) hnd.2 hfr'
    have hstep : addSeq o (st :: rest) s = addSeq o rest (addToCart o st.1 st.2 s).2 := rfl
    refine ⟨hstep ▸ hwfF, ?_, ?_⟩
    · rw [hstep, hitems, hofold]
      simp
    · intro x hx
      rw [hstep] at hx
      rcases hsubF x hx with h | h
      · rcases hsub x h with h' | h'
        · exact .inl h'
        · exact .inr (by simp [h'])
      · exact .inr (by simp [h])

/-! ### remove / clear lemmas -/

theorem removeFromCart_run {o : CartOwner} {product_id : String} {size : ℤ} {s : State}
    {c : Cart} (hwf : WF s) (hc : findCart o.owner_type o.owner_id s = some c) :
    (removeFromCart o product_id size s).1 = .ok true ∧
    findCart o.owner_type o.owner_id (removeFromCart o product_id size s).2 =
      some { c with items :=
        c.items.filter (fun it => !(it.product_id == product_id && it.size == size)) } := by
  obtain ⟨hfind, -, -⟩ := updateItems_spec
    (c.items.filter (fun it => !(it.product_id == product_id && it.size == size))) hwf hc
  have hc' : List.find? (ownerPred o.owner_type o.owner_id) s.carts = some c := hc
  constructor
  · simp [removeFromCart, hc]
  · simp only [findCart, removeFromCart, hc']
    exact hfind

theorem clearCart_eq_self {o : CartOwner} {s : State}
    (h : findCart o.owner_type o.owner_id s = none) : (clearCart o s).2 = s := by
  have hall : ∀ a ∈ s.carts, ownerPred o.owner_type o.owner_id a = false := fun a ha => by
    simpa using List.find?_eq_none.mp h a ha
  show ({ s with carts := deleteFirst (ownerPred o.owner_type o.owner_id) s.carts } : State) = s
  rw [deleteFirst_eq_self hall]

theorem clearCart_find_none {o : CartOwner} {s : State} (hwf : WF s) :
    findCart o.owner_type o.owner_id (clearCart o s).2 = none := by
  cases hc : findCart o.owner_type o.owner_id s with
  | none => rw [clearCart_eq_self hc]; exact hc
  | some c =>
    obtain ⟨hct, hci, l₁, l₂, hsplit, h₁⟩ := findCart_decomp hc
    have hows : ((l₁ ++ c :: l₂).map (fun x => (x.owner_type, x.owner_id))).Nodup := by
      have := hwf.2; rwa [cartOwners, hsplit] at this
    have how₂ := (nodup_map_split hows).2
    have h₂ : ∀ a ∈ l₂, ownerPred o.owner_type o.owner_id a = false := by
      intro a ha
      have hne := how₂ a ha
      have hnp : ¬ ownerPred o.owner_type o.owner_id a = true := by
        rw [ownerPred_eq_true]
        rintro ⟨ha1, ha2⟩
        exact hne (by rw [ha1, ha2, hct, hci])
      simpa using hnp
    have hdel : (clearCart o s).2.carts = l₁ ++ l₂ := by
      show deleteFirst _ s.carts = _
      rw [hsplit]
      exact deleteFirst_append _ l₁ l₂ c h₁ (ownerPred_eq_true.mpr ⟨hct, hci⟩)
    show ((clearCart o s).2.carts).find? _ = none
    rw [hdel]
    exact find?_eq_none_of_all fun a ha => by
      rcases List.mem_append.mp ha with h | h
      exacts [h₁ a h, h₂ a h]

theorem clearCart_idem {o : CartOwner} {s : State} (hwf : WF s) :
    clearCart o (clearCart o s).2 = clearCart o s := by
  have h := @clearCart_find_none o s hwf
  show (true, (clearCart o (clearCart o s).2).2) = clearCart o s
  rw [clearCart_eq_self h]
  rfl

/-! ### checkout lemmas -/

/-- The order document as `create_document` first inserts it. -/
def pendingOrder (p : CheckoutPayload) (fid : String) (cart : Cart)
    (promos : List Promocode) : Order :=
  { _id := fid, user_id := p.user_id, items := cart.items,
    total_amount := round2 (max 0 (cartTotal cart.items -
      evalDiscount p.promo_code (cartTotal cart.items) promos)),
    status := "processing", shipping_address := p.shipping_address,
    payment := { method := none, status := "pending", transaction_id := none },
    tracking := { carrier := none, tracking_number := none, status := "processing" } }

/-- The order document as it stands after checkout's simulated payment. -/
def confirmedOrder (p : CheckoutPayload) (fid : String) (cart : Cart)
    (promos : List Promocode) : Order :=
  { _id := fid, user_id := p.user_id, items := cart.items,
    total_amount := round2 (max 0 (cartTotal cart.items -
      evalDiscount p.promo_code (cartTotal cart.items) promos)),
    status := "confirmed", shipping_address := p.shipping_address,
    payment := { method := p.payment_method, status := "paid",
                 transaction_id := some ("TXN-" ++ last6 fid) },
    tracking := { carrier := none, tracking_number := none, status := "processing" } }

theorem checkout_run (p : CheckoutPayload) (fid : String) (s : State) (cart : Cart)
    (hwf : WF s) (hc : findCart p.owner_type p.owner_id s = some cart)
    (hne : cart.items ≠ []) (hfr : fid ∉ orderIds s) :
    (checkout p fid s).1 = .ok (fid, "confirmed") ∧
    findCart p.owner_type p.owner_id (checkout p fid s).2 = none ∧
    (checkout p fid s).2.orders = s.orders ++ [confirmedOrder p fid cart s.promocodes] ∧
    findOrder fid (checkout p fid s).2 = some (confirmedOrder p fid cart s.promocodes) := by
  have hItems : cart.items.isEmpty = false := by
    simpa [List.isEmpty_iff] using hne
  have hfr' : ∀ a ∈ s.orders, (a._id == fid) = false := by
    intro a ha
    have : a._id ≠ fid := fun heq => hfr (heq ▸ List.mem_map_of_mem (fun o => o._id) ha)
    simpa using this
  have hOrders : (checkout p fid s).2.orders =
      s.orders ++ [confirmedOrder p fid cart s.promocodes] := by
    have hupd := updateFirst_append
      (fun o => o._id == fid)
      (fun o => { o with status := "confirmed", payment := { method := p.payment_method, status := "paid", transaction_id := some ("TXN-" ++ last6 fid) } })
      s.orders [] (pendingOrder p fid cart s.promocodes) hfr' (by simp [pendingOrder])
    have hupd' : updateFirst
        (fun o => o._id == fid)
        (fun o => { o with status := "confirmed", payment := { method := p.payment_method, status := "paid", transaction_id := some ("TXN-" ++ last6 fid) } })
        (s.orders ++ [pendingOrder p fid cart s.promocodes]) =
        s.orders ++ [confirmedOrder p fid cart s.promocodes] := hupd
    show (checkout p fid s).2.orders = _
    simp only [checkout, hc, hItems, Bool.false_eq_true, if_false]
    exact hupd'
  refine ⟨by simp [checkout, hc, hItems], ?_, hOrders, ?_⟩
  · obtain ⟨hct, hci, l₁, l₂, hsplit, h₁⟩ := findCart_decomp hc
    have hids : ((l₁ ++ cart :: l₂).map (fun x => x._id)).Nodup := by
      have := hwf.1; rwa [cartIds, hsplit] at this
    have hid₁ := (nodup_map_split hids).1
    have hows : ((l₁ ++ cart :: l₂).map (fun x => (x.owner_type, x.owner_id))).Nodup := by
      have := hwf.2; rwa [cartOwners, hsplit] at this
    have how₂ := (nodup_map_split hows).2
    have h₂ : ∀ a ∈ l₂, ownerPred p.owner_type p.owner_id a = false := by
      intro a ha
      have hne' := how₂ a ha
      have hnp : ¬ ownerPred p.owner_type p.owner_id a = true := by
        rw [ownerPred_eq_true]
        rintro ⟨ha1, ha2⟩
        exact hne' (by rw [ha1, ha2, hct, hci])
      simpa using hnp
    have hcarts : (checkout p fid s).2.carts = l₁ ++ l₂ := by
      have hdel : deleteFirst (fun x => x._id == cart._id) s.carts = l₁ ++ l₂ := by
        rw [hsplit]
        exact deleteFirst_append _ l₁ l₂ cart
          (fun a ha => by simp [hid₁ a ha]) (by simp)
      show (checkout p fid s).2.carts = _
      simp only [checkout, hc, hItems, Bool.false_eq_true, if_false]
      exact hdel
    show ((checkout p fid s).2.carts).find? _ = none
    rw [hcarts]
    exact find?_eq_none_of_all fun a ha => by
      rcases List.mem_append.mp ha with h | h
      exacts [h₁ a h, h₂ a h]
  · show ((checkout p fid s).2.orders).find? _ = _
    rw [hOrders]
    exact find?_append_first hfr' (by simp [confirmedOrder])

/-! ### review lemmas -/

theorem createReview_run (payload : ReviewCreate) (fid : String) (s : State)
    (pr : Shoeproduct) (hv : isValidObjectId payload.product_id = true)
    (hp : findProduct payload.product_id s = some pr) :
    (createReview payload fid s).1 = .ok fid ∧
    (createReview payload fid s).2.reviews = s.reviews ++ [mkReview payload fid] ∧
    findProduct payload.product_id (createReview payload fid s).2 =
      some { pr with rating :=
        ⟨round2 (((productReviews payload.product_id
              (s.reviews ++ [mkReview payload fid])).map
                (fun r => (r.rating : ℚ))).sum /
            ((productReviews payload.product_id
              (s.reviews ++ [mkReview payload fid])).length : ℚ)),
         (productReviews payload.product_id (s.reviews ++ [mkReview payload fid])).length⟩ } := by
  have hrne : (productReviews payload.product_id
      (s.reviews ++ [mkReview payload fid])).isEmpty = false := by
    simp [productReviews, mkReview, List.filter_append, List.isEmpty_iff]
  have hp' : s.shoeproducts.find? (fun q => q._id == payload.product_id) = some pr := hp
  have hpid := List.find?_some hp'
  have hfind := find?_updateFirst
    (fun q => { q with rating :=
      ⟨round2 (((productReviews payload.product_id
            (s.reviews ++ [mkReview payload fid])).map
              (fun r => (r.rating : ℚ))).sum /
          ((productReviews payload.product_id
            (s.reviews ++ [mkReview payload fid])).length : ℚ)),
       (productReviews payload.product_id (s.reviews ++ [mkReview payload fid])).length⟩ })
    hp' hpid
  refine ⟨by simp [createReview, hv, hp, hrne], ?_, ?_⟩
  · show (createReview payload fid s).2.reviews = _
    simp only [createReview, hv, if_true, hp, hrne, Bool.false_eq_true, if_false]
  · show ((createReview payload fid s).2.shoeproducts).find? _ = _
    simp only [createReview, hv, if_true, hp, hrne, Bool.false_eq_true, if_false]
    exact hfind

/-! ### Concrete fixtures for the examples and witnesses -/

def oid1 : String := "aaaaaaaaaaaaaaaaaaaaaaaa"

def demoItem : CartItem :=
  { product_id := oid1, name := "AirFlex Runner", price := 100, size := 9, qty := 1 }

def demoCart : Cart :=
  { _id := "c1", owner_type := "user", owner_id := "u1", items := [demoItem] }

def demoPromos : List Promocode :=
  [⟨"SAVE10", "percentage", 10, true, none⟩,
   ⟨"CUT20", "amount", 20, true, none⟩,
   ⟨"BIG150", "amount", 150, true, none⟩]

def demoState : State := { carts := [demoCart], promocodes := demoPromos }

def blankState : State := {}

def demoPayload (code : String) : CheckoutPayload :=
  { owner_type := "user", owner_id := "u1", promo_code := some code }

/-- The total_amount of the order created by checking out `demoState`
(one item, price 100, qty 1) with the given promo code. -/
def demoTotal (code : String) : Option ℚ :=
  (findOrder "ord001" (checkout (demoPayload code) "ord001" demoState).2).map
    (fun o => o.total_amount)

/-! ### The claims -/

/-- C1: for every cart whose items have prices and quantities and every
supplied discount, checkout computes subtotal = Σ (price × qty) over the
cart's items and the created order's total = max(0, subtotal − discount)
rounded to 2 decimals; with subtotal 100 a percentage-10 promo yields 90,
an amount-20 promo yields 80, and an amount-150 promo yields 0, never a
negative total. -/
theorem checkout_total_spec (p : CheckoutPayload) (fid : String) (s : State) (cart : Cart)
    (hwf : WF s) (hc : findCart p.owner_type p.owner_id s = some cart)
    (hne : cart.items ≠ []) (hfr : fid ∉ orderIds s) :
    (∃ o', findOrder fid (checkout p fid s).2 = some o' ∧
      o'.total_amount = round2 (max 0
        ((cart.items.map (fun it => it.price * (it.qty : ℚ))).sum -
          evalDiscount p.promo_code
            ((cart.items.map (fun it => it.price * (it.qty : ℚ))).sum) s.promocodes))) ∧
    demoTotal "SAVE10" = some 90 ∧ demoTotal "CUT20" = some 80 ∧
    demoTotal "BIG150" = some 0 := by
  obtain ⟨-, -, -, hfind⟩ := checkout_run p fid s cart hwf hc hne hfr
  exact ⟨⟨confirmedOrder p fid cart s.promocodes, hfind, rfl⟩,
    by decide, by decide, by decide⟩

theorem checkout_total_spec_witness :
    (∃ o', findOrder "ord001" (checkout (demoPayload "SAVE10") "ord001" demoState).2 =
        some o' ∧
      o'.total_amount = round2 (max 0
        ((demoCart.items.map (fun it => it.price * (it.qty : ℚ))).sum -
          evalDiscount (demoPayload "SAVE10").promo_code
            ((demoCart.items.map (fun it => it.price * (it.qty : ℚ))).sum)
            demoState.promocodes))) ∧
    demoTotal "SAVE10" = some 90 ∧ demoTotal "CUT20" = some 80 ∧
    demoTotal "BIG150" = some 0 :=
  checkout_total_spec (demoPayload "SAVE10") "ord001" demoState demoCart
    (by decide) (by decide) (by decide) (by decide)

/-- C2: for every checkout on a cart with at least one item, the operation
succeeds; afterwards the owner's cart document no longer exists, the created
order's items equal the cart items checkout read (snapshot), order.status is
"confirmed", payment.status is "paid", and the transaction id is
deterministically "TXN-" plus the last 6 characters of the order id. -/
theorem checkout_success_spec (p : CheckoutPayload) (fid : String) (s : State) (cart : Cart)
    (hwf : WF s) (hc : findCart p.owner_type p.owner_id s = some cart)
    (hne : cart.items ≠ []) (hfr : fid ∉ orderIds s) :
    (checkout p fid s).1 = .ok (fid, "confirmed") ∧
    findCart p.owner_type p.owner_id (checkout p fid s).2 = none ∧
    ∃ o', findOrder fid (checkout p fid s).2 = some o' ∧
      o'.items = cart.items ∧ o'.status = "confirmed" ∧ o'.payment.status = "paid" ∧
      o'.payment.transaction_id = some ("TXN-" ++ last6 fid) := by
  obtain ⟨h1, h2, -, hfind⟩ := checkout_run p fid s cart hwf hc hne hfr
  exact ⟨h1, h2, confirmedOrder p fid cart s.promocodes, hfind, rfl, rfl, rfl, rfl⟩

theorem checkout_success_spec_witness :
    (checkout (demoPayload "SAVE10") "ord001" demoState).1 = .ok ("ord001", "confirmed") ∧
    findCart "user" "u1" (checkout (demoPayload "SAVE10") "ord001" demoState).2 = none ∧
    ∃ o', findOrder "ord001" (checkout (demoPayload "SAVE10") "ord001" demoState).2 =
        some o' ∧
      o'.items = demoCart.items ∧ o'.status = "confirmed" ∧
      o'.payment.status = "paid" ∧
      o'.payment.transaction_id = some ("TXN-" ++ last6 "ord001") :=
  checkout_success_spec (demoPayload "SAVE10") "ord001" demoState demoCart
    (by decide) (by decide) (by decide) (by decide)

/-- C5: checkout on an absent cart, or on a cart with zero items, fails with
the empty-cart error and performs no datastore mutation: the state it returns
is exactly the input state (no cart, order, product or promocode changes). -/
theorem checkout_emptyCart_spec (p : CheckoutPayload) (fid : String) (s : State)
    (h : findCart p.owner_type p.owner_id s = none ∨
         ∃ c, findCart p.owner_type p.owner_id s = some c ∧ c.items = []) :
    checkout p fid s = (.error .emptyCart, s) := by
  rcases h with h | ⟨c, hc, hitems⟩
  · simp [checkout, h]
  · simp [checkout, hc, hitems]

theorem checkout_emptyCart_spec_witness :
    checkout (demoPayload "SAVE10") "ord001" blankState =
      (.error .emptyCart, blankState) :=
  checkout_emptyCart_spec (demoPayload "SAVE10") "ord001" blankState (.inl (by decide))

/-- C8: get(owner) returns the cart's items with total = Σ (price × qty)
rounded to 2 decimals, and an empty cart with total 0.0 (not an error) when
no cart document exists for the owner. -/
theorem getCart_spec (ot oi : String) (s : State) :
    (findCart ot oi s = none → getCart ot oi s = ⟨[], 0⟩) ∧
    (∀ c, findCart ot oi s = some c →
       getCart ot oi s =
         ⟨c.items, round2 ((c.items.map (fun it => it.price * (it.qty : ℚ))).sum)⟩) := by
  constructor
  · intro h; simp [getCart, h]
  · intro c hc; simp [getCart, hc, cartTotal]

/-- C10: add_to_cart validates only that the product id is a well-formed
ObjectId and never consults the product catalog: with a syntactically valid
id the add succeeds and the item is stored (even when no product with that id
exists — the result is entirely independent of the products collection), and
only a malformed id is rejected, with the invalid-id error. -/
theorem addToCart_validation_spec (o : CartOwner) (item : CartItem) (fid : String)
    (s : State) :
    (isValidObjectId item.product_id = false →
       addToCart o item fid s = (.error .invalidProductId, s)) ∧
    (isValidObjectId item.product_id = true → WF s →
       (∃ cid, (addToCart o item fid s).1 = .ok cid) ∧
       ∃ i, findCart o.owner_type o.owner_id (addToCart o item fid s).2 =
         some { _id := i, owner_type := o.owner_type, owner_id := o.owner_id,
                items := mergeItem (ownerItems o.owner_type o.owner_id s) item }) ∧
    (∀ ps : List Shoeproduct,
       addToCart o item fid { s with shoeproducts := ps } =
         ((addToCart o item fid s).1,
          { (addToCart o item fid s).2 with shoeproducts := ps })) := by
  refine ⟨?_, ?_, ?_⟩
  · intro hv
    simp [addToCart, hv]
  · intro hv hwf
    obtain ⟨h1, h2, -, -⟩ := addToCart_ok hwf hv
    exact ⟨h1, h2⟩
  · intro ps
    by_cases hv : isValidObjectId item.product_id
    · cases hc : findCart o.owner_type o.owner_id s with
      | none =>
        have hc' : findCart o.owner_type o.owner_id { s with shoeproducts := ps } =
            none := hc
        simp [addToCart, hv, hc, hc']
      | some c =>
        have hc' : findCart o.owner_type o.owner_id { s with shoeproducts := ps } =
            some c := hc
        simp [addToCart, hv, hc, hc']
    · have hv' : isValidObjectId item.product_id = false := by simpa using hv
      simp [addToCart, hv']

/-- C3 counterexample: a start state whose cart already holds the key
(oid1, size 9) with quantity 1 — an allowed start state, at most one line for
the pair — followed by one add call with quantity 1 yields quantity 2, not
the claimed sum of the added quantities, which is 1. -/
theorem addSeq_sum_counterexample :
    (keyLines oid1 9 (ownerItems "user" "u1" demoState)).length ≤ 1 ∧
    keyQty oid1 9 (ownerItems "user" "u1"
      (addSeq ⟨"user", "u1"⟩ [(demoItem, "f9")] demoState)) = 2 ∧
    (2 : ℤ) ≠ 1 := by
  exact ⟨by decide, by decide, by decide⟩

/-- C3 (amended): N add calls with the same (product, size) key leave the
owner's cart with exactly one line for that key whose quantity is the
starting quantity for the key (0 when no line or no cart existed) plus the
sum of the added quantities; a single add of a key not present appends the
new line item. -/
theorem addSeq_merge_spec (o : CartOwner) (pid : String) (sz : ℤ)
    (steps : List (CartItem × String)) (s : State)
    (hwf : WF s)
    (hkey : ∀ st ∈ steps, st.1.product_id = pid ∧ st.1.size = sz)
    (hv : ∀ st ∈ steps, isValidObjectId st.1.product_id = true)
    (hnd : (steps.map Prod.snd).Nodup)
    (hfr : ∀ f ∈ steps.map Prod.snd, f ∉ cartIds s)
    (hstart : (keyLines pid sz (ownerItems o.owner_type o.owner_id s)).length ≤ 1) :
    keyQty pid sz (ownerItems o.owner_type o.owner_id (addSeq o steps s)) =
      keyQty pid sz (ownerItems o.owner_type o.owner_id s) +
        ((steps.map Prod.fst).map (fun it => it.qty)).sum ∧
    (steps ≠ [] →
      (keyLines pid sz (ownerItems o.owner_type o.owner_id (addSeq o steps s))).length
        = 1) ∧
    (∀ item fid c, item.product_id = pid → item.size = sz →
      isValidObjectId item.product_id = true →
      findCart o.owner_type o.owner_id s = some c → keyLines pid sz c.items = [] →
      ownerItems o.owner_type o.owner_id (addToCart o item fid s).2 =
        c.items ++ [item]) := by
  obtain ⟨-, hitems, -⟩ := addSeq_spec o steps s hwf hv hnd hfr
  have hkey' : ∀ it ∈ steps.map Prod.fst, it.product_id = pid ∧ it.size = sz := by
    intro it hit
    obtain ⟨st, hst, rfl⟩ := List.mem_map.mp hit
    exact hkey st hst
  refine ⟨?_, ?_, ?_⟩
  · rw [hitems]
    exact keyQty_foldl _ _ hkey'
  · intro hne
    rw [hitems]
    have hmne : steps.map Prod.fst ≠ [] := by simpa using hne
    rw [keyLen_foldl _ _ hkey' hmne]
    omega
  · intro item fid c hp hs hvi hc hkl
    obtain ⟨-, ⟨i, hfind⟩, -, -⟩ := @addToCart_ok o item fid s hwf hvi
    have ho : ownerItems o.owner_type o.owner_id (addToCart o item fid s).2 =
        mergeItem (ownerItems o.owner_type o.owner_id s) item := by
      simp [ownerItems, hfind]
    have hoc : ownerItems o.owner_type o.owner_id s = c.items := by
      simp [ownerItems, hc]
    rw [ho, hoc]
    refine mergeItem_of_no_match _ hp hs fun it hit => ?_
    have := List.filter_eq_nil_iff.mp hkl it hit
    simpa using this

def c3Item (q : ℤ) : CartItem :=
  { product_id := oid1, name := "AirFlex Runner", price := 100, size := 9, qty := q }

def c3Steps : List (CartItem × String) := [(c3Item 2, "f1"), (c3Item 3, "f2")]

theorem addSeq_merge_spec_witness :
    keyQty oid1 9 (ownerItems "user" "u1" (addSeq ⟨"user", "u1"⟩ c3Steps blankState)) =
      keyQty oid1 9 (ownerItems "user" "u1" blankState) +
        ((c3Steps.map Prod.fst).map (fun it => it.qty)).sum ∧
    (c3Steps ≠ [] →
      (keyLines oid1 9 (ownerItems "user" "u1"
        (addSeq ⟨"user", "u1"⟩ c3Steps blankState))).length = 1) ∧
    (∀ item fid c, item.product_id = oid1 → item.size = 9 →
      isValidObjectId item.product_id = true →
      findCart "user" "u1" blankState = some c → keyLines oid1 9 c.items = [] →
      ownerItems "user" "u1" (addToCart ⟨"user", "u1"⟩ item fid blankState).2 =
        c.items ++ [item]) :=
  addSeq_merge_spec ⟨"user", "u1"⟩ oid1 9 c3Steps blankState (by decide) (by decide)
    (by decide) (by decide) (by decide) (by decide)

/-- C4 counterexample: with the empty string supplied as the promo code and
an active promocode whose code is exactly the empty string and whose
discount_type is amount with value 5, the evaluation yields 0 rather than the
claimed value 5: Python's `if payload.promo_code` treats "" as no code. -/
theorem evalDiscount_empty_code_counterexample :
    (⟨"", "amount", 5, true, none⟩ : Promocode).active = true ∧
    evalDiscount (some "") 100 [⟨"", "amount", 5, true, none⟩] = 0 ∧
    (0 : ℚ) ≠ (5 : ℚ) := by
  exact ⟨rfl, by decide, by decide⟩

/-- C4 (amended): for every NON-EMPTY promo code string and subtotal
(an empty or absent code is treated by the truthiness guard as not supplied
and yields 0), evaluation yields 0 when no active promocode with that exact
code exists; the first active code matched exactly (case-sensitively) is the
only one applied, giving discount = value for amount codes and
subtotal × value / 100 for percentage codes. -/
theorem evalDiscount_spec (code : String) (subtotal : ℚ) (promos : List Promocode)
    (hne : code ≠ "") :
    ((∀ pc ∈ promos, ¬(pc.code = code ∧ pc.active = true)) →
       evalDiscount (some code) subtotal promos = 0) ∧
    (∀ pc, promos.find? (fun q => q.code == code && q.active) = some pc →
       (pc.discount_type = "amount" →
          evalDiscount (some code) subtotal promos = pc.value) ∧
       (pc.discount_type = "percentage" →
          evalDiscount (some code) subtotal promos = subtotal * pc.value / 100)) ∧
    evalDiscount none subtotal promos = 0 := by
  have hb : (code == "") = false := by simpa using hne
  refine ⟨?_, ?_, rfl⟩
  · intro h
    have hnone : promos.find? (fun q => q.code == code && q.active) = none :=
      find?_eq_none_of_all fun pc hpc => by
        have hn := h pc hpc
        have : ¬((pc.code == code && pc.active) = true) := by
          simp only [Bool.and_eq_true, beq_iff_eq]
          exact fun hx => hn hx
        simpa using this
    simp [evalDiscount, hb, hnone]
  · intro pc hpc
    constructor
    · intro hamount
      simp [evalDiscount, hb, hpc, hamount]
    · intro hpct
      have hda : (pc.discount_type == "amount") = false := by simp [hpct]
      simp [evalDiscount, hb, hpc, hda]

theorem evalDiscount_spec_witness :
    ((∀ pc ∈ demoPromos, ¬(pc.code = "SAVE10" ∧ pc.active = true)) →
       evalDiscount (some "SAVE10") 100 demoPromos = 0) ∧
    (∀ pc, demoPromos.find? (fun q => q.code == "SAVE10" && q.active) = some pc →
       (pc.discount_type = "amount" →
          evalDiscount (some "SAVE10") 100 demoPromos = pc.value) ∧
       (pc.discount_type = "percentage" →
          evalDiscount (some "SAVE10") 100 demoPromos = 100 * pc.value / 100)) ∧
    evalDiscount none 100 demoPromos = 0 :=
  evalDiscount_spec "SAVE10" 100 demoPromos (by decide)

def demoProduct : Shoeproduct :=
  { _id := oid1, name := "AirFlex Runner", brand := "Aero", price := 89 }

def reviewState0 : State := { shoeproducts := [demoProduct] }

def reviewPayload (r : ℤ) : ReviewCreate := { product_id := oid1, rating := r }

def reviewState1 : State := (createReview (reviewPayload 5) "r1" reviewState0).2

def reviewState2 : State := (createReview (reviewPayload 3) "r2" reviewState1).2

def reviewState3 : State := (createReview (reviewPayload 4) "r3" reviewState2).2

def reviewState4 : State := (createReview (reviewPayload 2) "r4" reviewState3).2

/-- C6: for a product that resolves, submitting a review with rating 1..5
appends the review record and recomputes the product's full rating summary
from all of that product's reviews: average = mean of the ratings rounded to
2 decimals, count = total number of reviews; ratings [5,3,4] yield
{average 4.0, count 3} and a fourth rating 2 yields {average 3.5, count 4};
submission fails with NotFound when the product id does not resolve. -/
theorem createReview_spec (payload : ReviewCreate) (fid : String) (s : State)
    (hv : isValidObjectId payload.product_id = true)
    (hr1 : 1 ≤ payload.rating) (hr5 : payload.rating ≤ 5) :
    (findProduct payload.product_id s = none →
       createReview payload fid s = (.error .productNotFound, s)) ∧
    (∀ pr, findProduct payload.product_id s = some pr →
       (createReview payload fid s).1 = .ok fid ∧
       (createReview payload fid s).2.reviews = s.reviews ++ [mkReview payload fid] ∧
       ∃ pr', findProduct payload.product_id (createReview payload fid s).2 = some pr' ∧
         pr'.rating.count =
           (productReviews payload.product_id
             (createReview payload fid s).2.reviews).length ∧
         pr'.rating.average = round2
           (((productReviews payload.product_id
               (createReview payload fid s).2.reviews).map (fun r => (r.rating : ℚ))).sum /
            ((productReviews payload.product_id
               (createReview payload fid s).2.reviews).length : ℚ))) ∧
    (findProduct oid1 reviewState3).map (fun q => q.rating) = some ⟨4, 3⟩ ∧
    (findProduct oid1 reviewState4).map (fun q => q.rating) = some ⟨7/2, 4⟩ := by
  refine ⟨?_, ?_, by decide, by decide⟩
  · intro h
    simp [createReview, hv, h]
  · intro pr hpr
    obtain ⟨h1, h2, h3⟩ := createReview_run payload fid s pr hv hpr
    refine ⟨h1, h2, _, h3, ?_, ?_⟩
    · rw [h2]
    · rw [h2]

theorem createReview_spec_witness :
    (findProduct oid1 reviewState0 = none →
       createReview (reviewPayload 5) "r1" reviewState0 =
         (.error .productNotFound, reviewState0)) ∧
    (∀ pr, findProduct oid1 reviewState0 = some pr →
       (createReview (reviewPayload 5) "r1" reviewState0).1 = .ok "r1" ∧
       (createReview (reviewPayload 5) "r1" reviewState0).2.reviews =
         reviewState0.reviews ++ [mkReview (reviewPayload 5) "r1"] ∧
       ∃ pr', findProduct oid1 (createReview (reviewPayload 5) "r1" reviewState0).2 =
           some pr' ∧
         pr'.rating.count =
           (productReviews oid1
             (createReview (reviewPayload 5) "r1" reviewState0).2.reviews).length ∧
         pr'.rating.average = round2
           (((productReviews oid1
               (createReview (reviewPayload 5) "r1" reviewState0).2.reviews).map
                 (fun r => (r.rating : ℚ))).sum /
            ((productReviews oid1
               (createReview (reviewPayload 5) "r1" reviewState0).2.reviews).length : ℚ))) ∧
    (findProduct oid1 reviewState3).map (fun q => q.rating) = some ⟨4, 3⟩ ∧
    (findProduct oid1 reviewState4).map (fun q => q.rating) = some ⟨7/2, 4⟩ :=
  createReview_spec (reviewPayload 5) "r1" reviewState0 (by decide) (by decide) (by decide)

/-- C7: remove(owner, product id, size) fails with NotFound when no cart
exists for the owner; with a cart it removes exactly the lines matching the
(product id, size) key — at most one under the documented one-line-per-key
cart invariant — succeeds as a no-op when no line matches, and every
non-matching line is kept unchanged. -/
theorem removeFromCart_spec (o : CartOwner) (product_id : String) (size : ℤ) (s : State)
    (hwf : WF s) :
    (findCart o.owner_type o.owner_id s = none →
       removeFromCart o product_id size s = (.error .cartNotFound, s)) ∧
    (∀ c, findCart o.owner_type o.owner_id s = some c →
       (removeFromCart o product_id size s).1 = .ok true ∧
       ∃ c', findCart o.owner_type o.owner_id (removeFromCart o product_id size s).2 =
           some c' ∧
         c'.items = c.items.filter (fun it => !(matchKey product_id size it)) ∧
         ((keyLines product_id size c.items).length ≤ 1 →
            c.items.length ≤ c'.items.length + 1) ∧
         (keyLines product_id size c.items = [] → c'.items = c.items) ∧
         (∀ it ∈ c.items, matchKey product_id size it = false → it ∈ c'.items)) := by
  refine ⟨?_, ?_⟩
  · intro h
    simp [removeFromCart, h]
  · intro c hc
    obtain ⟨h1, h2⟩ := removeFromCart_run hwf hc
    refine ⟨h1, _, h2, rfl, ?_, ?_, ?_⟩
    · intro hle
      have hlen := length_filter_not_add (matchKey product_id size) c.items
      have hkl : (c.items.filter (matchKey product_id size)).length ≤ 1 := hle
      show c.items.length ≤
        (c.items.filter (fun it => !(matchKey product_id size it))).length + 1
      omega
    · intro hnil
      show c.items.filter (fun it => !(matchKey product_id size it)) = c.items
      have hall : ∀ a ∈ c.items, matchKey product_id size a = false := by
        intro a ha
        have := List.filter_eq_nil_iff.mp hnil a ha
        simpa using this
      exact List.filter_eq_self.mpr fun a ha => by simp [hall a ha]
    · intro it hit hfalse
      show it ∈ c.items.filter (fun x => !(matchKey product_id size x))
      exact List.mem_filter.mpr ⟨hit, by simp [hfalse]⟩

theorem removeFromCart_spec_witness :
    (findCart "user" "u1" demoState = none →
       removeFromCart ⟨"user", "u1"⟩ oid1 7 demoState =
         (.error .cartNotFound, demoState)) ∧
    (∀ c, findCart "user" "u1" demoState = some c →
       (removeFromCart ⟨"user", "u1"⟩ oid1 7 demoState).1 = .ok true ∧
       ∃ c', findCart "user" "u1" (removeFromCart ⟨"user", "u1"⟩ oid1 7 demoState).2 =
           some c' ∧
         c'.items = c.items.filter (fun it => !(matchKey oid1 7 it)) ∧
         ((keyLines oid1 7 c.items).length ≤ 1 →
            c.items.length ≤ c'.items.length + 1) ∧
         (keyLines oid1 7 c.items = [] → c'.items = c.items) ∧
         (∀ it ∈ c.items, matchKey oid1 7 it = false → it ∈ c'.items)) :=
  removeFromCart_spec ⟨"user", "u1"⟩ oid1 7 demoState (by decide)

/-- C9: clear(owner) always succeeds whether or not a cart exists, a second
clear also succeeds and changes nothing (idempotent), and clear followed by
get returns an empty cart with total 0.0, regardless of prior state. -/
theorem clearCart_spec (o : CartOwner) (s : State) (hwf : WF s) :
    (clearCart o s).1 = true ∧
    clearCart o (clearCart o s).2 = (true, (clearCart o s).2) ∧
    getCart o.owner_type o.owner_id (clearCart o s).2 = ⟨[], 0⟩ := by
  refine ⟨rfl, ?_, ?_⟩
  · rw [clearCart_idem hwf]
    rfl
  · simp [getCart, clearCart_find_none hwf]

theorem clearCart_spec_witness :
    (clearCart ⟨"user", "u1"⟩ demoState).1 = true ∧
    clearCart ⟨"user", "u1"⟩ (clearCart ⟨"user", "u1"⟩ demoState).2 =
      (true, (clearCart ⟨"user", "u1"⟩ demoState).2) ∧
    getCart "user" "u1" (clearCart ⟨"user", "u1"⟩ demoState).2 = ⟨[], 0⟩ :=
  clearCart_spec ⟨"user", "u1"⟩ demoState (by decide)

end ShoeStore
